/-
Verification of the seniorsatwork-matching repository against its
natural-language specification.

Shallow embedding conventions:
* Python floats are modelled as rationals (ℚ); machine floating point is
  replaced by exact arithmetic, and claims phrased "within floating
  tolerance" are settled by exact bounds that dominate any double rounding.
* Python strings are modelled as Lean Strings; str.strip() is modelled by
  pyStrip (drop whitespace from both ends of the character list), which is
  the documented Python semantics.
* Fallible Python code is modelled with Except / Option.
-/
import Mathlib

namespace SeniorsAtWork

/-! ## etl/experience_scorer.py -/

/-- etl/experience_scorer.py: CURRENT_YEAR = 2026. -/
def CURRENT_YEAR : ℤ := 2026

/-- Branch of recency_weight for 0 < years_ago ≤ 5 (linear decay). -/
def linBranch (years_ago : ℤ) : ℚ := 1 - (years_ago : ℚ) * (4/100)

/-- Branch of recency_weight for 5 < years_ago ≤ 15 (geometric 7 percent per year). -/
def midBranch (years_ago : ℤ) : ℚ := (80/100) * (93/100) ^ (years_ago - 5).toNat

/-- Branch of recency_weight for years_ago > 15 (steep geometric decay). -/
def lateBranch (years_ago : ℤ) : ℚ := (40/100) * (85/100) ^ (years_ago - 15).toNat

/-- recency_weight as a function of years_ago = CURRENT_YEAR - end_year
(the body of etl/experience_scorer.py, recency_weight, after the
years_ago assignment). -/
def recencyWeightOfYearsAgo (years_ago : ℤ) : ℚ :=
  if years_ago ≤ 0 then 1
  else if years_ago ≤ 5 then linBranch years_ago
  else if years_ago ≤ 15 then midBranch years_ago
  else lateBranch years_ago

/-- etl/experience_scorer.py: recency_weight(end_year). -/
def recency_weight (end_year : ℤ) : ℚ :=
  recencyWeightOfYearsAgo (CURRENT_YEAR - end_year)

/-! ## api/matching.py: display normalization and score breakdown -/

/-- Python round-half-to-even to an integer (the rounding used by round()). -/
def pyRoundHalfEven (x : ℚ) : ℤ :=
  let f := ⌊x⌋
  let r := x - f
  if r < 1/2 then f
  else if 1/2 < r then f + 1
  else if Even f then f else f + 1

/-- Python round(x, 1). -/
def pyRound1 (x : ℚ) : ℚ := (pyRoundHalfEven (x * 10) : ℚ) / 10

/-- Python weights.get(key, default) on the configured weights dict. -/
def weightGet (w : List (String × ℚ)) (k : String) (d : ℚ) : ℚ :=
  (w.lookup k).getD d

/-- api/matching.py, run_match: total_norm = min(100.0, max(0.0, (score_raw / 2.0) * 100.0)). -/
def totalNorm (score_raw : ℚ) : ℚ := min 100 (max 0 (score_raw / 2 * 100))

/-- The seven-dimension score breakdown returned per hit (api/models.py ScoreBreakdown,
populated in api/matching.py run_match). -/
structure ScoreBreakdown where
  total : ℚ
  title_score : ℚ
  industry_score : ℚ
  experience_score : ℚ
  skills_score : ℚ
  seniority_score : ℚ
  education_score : ℚ
  language_score : ℚ
deriving DecidableEq, Repr

/-- api/matching.py, run_match lines 204-218: breakdown for one hit with raw score
score_raw under configured weights w. -/
def mkScoreBreakdown (w : List (String × ℚ)) (score_raw : ℚ) : ScoreBreakdown :=
  let total_norm := totalNorm score_raw
  { total := pyRound1 total_norm
    title_score := pyRound1 (total_norm * weightGet w "title" (38/100))
    industry_score := pyRound1 (total_norm * weightGet w "industry" (19/100))
    experience_score := pyRound1 (total_norm * weightGet w "experience" (14/100))
    skills_score := pyRound1 (total_norm * weightGet w "skills" (1/10))
    seniority_score := pyRound1 (total_norm * weightGet w "seniority" (7/100))
    education_score := pyRound1 (total_norm * weightGet w "education" (7/100))
    language_score := pyRound1 (total_norm * weightGet w "language" (5/100)) }

/-! ## api/matching.py: run_match search execution and failure handling -/

/-- Python "a or b" for a string read with .get (missing or empty string falls
back to b). -/
def pyOrStr (a : Option String) (b : String) : String :=
  match a with
  | some s => if s = "" then b else s
  | none => b

/-- First element of error["root_cause"] (a root-cause entry of an
Elasticsearch BadRequestError body). -/
structure ESRootCause where
  reason : Option String
  scriptStack : Option String

/-- The error object of a BadRequestError body (body["error"]); root_cause
models error.get("root_cause") after the None-or-empty fallback to a list. -/
structure ESErrorInfo where
  rootCause : List ESRootCause
  reason : Option String

/-- Outcome of es.search raising: a BadRequestError (with str(e) and the
optional structured body) or any other exception (with its str()). -/
inductive SearchFailure where
  | badRequest (base : String) (body : Option ESErrorInfo)
  | other (msg : String)

/-- api/matching.py, run_match lines 168-181: refine the BadRequestError
detail string from the structured error body; any failure inside this
extraction is swallowed (modelled by the none branch keeping str(e)). -/
def extractBadRequestDetail (base : String) (body : Option ESErrorInfo) : String :=
  match body with
  | none => base
  | some err =>
    let root := match err.rootCause with
      | [] => ({ reason := none, scriptStack := none } : ESRootCause)
      | r :: _ => r
    let reason := pyOrStr root.reason (pyOrStr err.reason base)
    match root.scriptStack with
    | some st => if st = "" then reason else reason ++ " (script: " ++ st ++ ")"
    | none => reason

/-- One Elasticsearch hit, reduced to the field run_match reads for scoring
(_score; the _source fields only feed the textual candidate card). -/
structure ESHit where
  score : ℚ

/-- The hits section of a successful es.search response. -/
structure ESHitsResult where
  hits : List ESHit
  total : ℤ

/-- api/models.py MatchResponse, reduced to the match list (breakdown and
rank per hit; named matchList here because matches is reserved in Lean),
message and total_above_threshold. -/
structure MatchResponse where
  matchList : List (ScoreBreakdown × Nat)
  message : Option String
  total_above_threshold : ℤ

/-- api/matching.py, run_match from the es.search call on: the single search
invocation either succeeds with hits or raises; both except branches return a
well-formed empty response (lines 167-192), the success branch formats the
hits (lines 194-323). No retry: the one outcome is consumed once. -/
def runMatchResult (w : List (String × ℚ))
    (outcome : Except SearchFailure ESHitsResult) : MatchResponse :=
  match outcome with
  | .error (SearchFailure.badRequest base body) =>
      { matchList := []
        message := some ("Search failed: " ++ extractBadRequestDetail base body)
        total_above_threshold := 0 }
  | .error (SearchFailure.other msg) =>
      { matchList := []
        message := some ("Search failed: " ++ msg)
        total_above_threshold := 0 }
  | .ok resp =>
      let ms := resp.hits.enum.map (fun p => (mkScoreBreakdown w p.2.score, p.1 + 1))
      { matchList := ms
        message := if ms = [] then some "No qualified candidates found above threshold." else none
        total_above_threshold := resp.total }

/-! ## api/config.py: runtime configuration -/

/-- A JSON value as returned by json.load. -/
inductive JVal where
  | null
  | bool (b : Bool)
  | num (q : ℚ)
  | str (s : String)
  | arr (items : List JVal)
  | obj (fields : List (String × JVal))
deriving BEq

/-- Python exception classes raised by the configuration readers. -/
inductive PyError where
  | attributeError
  | valueError
  | typeError
deriving DecidableEq, Repr

/-- api/config.py: DEFAULT_WEIGHTS (note: no "language" key). -/
def DEFAULT_WEIGHTS : List (String × JVal) :=
  [("title", .num (40/100)), ("industry", .num (20/100)), ("experience", .num (15/100)),
   ("skills", .num (10/100)), ("seniority", .num (8/100)), ("education", .num (7/100))]

/-- api/config.py: DEFAULT_MIN_SCORE_RAW = 1.55. -/
def DEFAULT_MIN_SCORE_RAW : ℚ := 155/100

/-- api/config.py: DEFAULT_MAX_RESULTS = 20. -/
def DEFAULT_MAX_RESULTS : ℤ := 20

/-- The default dict returned by load_config when the file cannot be used. -/
def defaultConfig : JVal :=
  .obj [("scoring_weights", .obj DEFAULT_WEIGHTS),
        ("min_score_raw", .num DEFAULT_MIN_SCORE_RAW),
        ("max_results", .num (DEFAULT_MAX_RESULTS : ℚ))]

/-- State of the config.json file as load_config encounters it. -/
inductive ConfigFile where
  | missing
  | unreadable
  | invalidJson
  | valid (v : JVal)

/-- api/config.py, load_config: a missing file skips the read; an unreadable
file or invalid JSON is caught by the bare except and falls through; both
paths return the default dict. A readable valid-JSON file returns whatever
json.load produced. Total: load_config itself never raises. -/
def load_config : ConfigFile → JVal
  | .missing => defaultConfig
  | .unreadable => defaultConfig
  | .invalidJson => defaultConfig
  | .valid v => v

/-- Python v.get(key, default): only dicts have .get; everything else raises
AttributeError. -/
def pyDictGet (v : JVal) (key : String) (default : JVal) : Except PyError JVal :=
  match v with
  | .obj kvs => .ok ((kvs.lookup key).getD default)
  | _ => .error .attributeError

/-- Python v.copy(): dicts and lists have .copy; scalars and None do not. -/
def pyCopy (v : JVal) : Except PyError JVal :=
  match v with
  | .obj kvs => .ok (.obj kvs)
  | .arr l => .ok (.arr l)
  | _ => .error .attributeError

/-- Python float(v) on a JSON value. Numeric strings would parse; the string
case is modelled as the commonest outcome (ValueError) and no theorem below
exercises it. -/
def pyFloat : JVal → Except PyError ℚ
  | .num q => .ok q
  | .bool b => .ok (if b then 1 else 0)
  | .str _ => .error .valueError
  | _ => .error .typeError

/-- Python int(v) on a JSON value (truncation toward zero for numbers).
Numeric strings would parse; the string case is modelled as the commonest
outcome (ValueError) and no theorem below exercises it. -/
def pyInt : JVal → Except PyError ℤ
  | .num q => .ok (if 0 ≤ q then ⌊q⌋ else -⌊-q⌋)
  | .bool b => .ok (if b then 1 else 0)
  | .str _ => .error .valueError
  | _ => .error .typeError

/-- api/config.py, get_weights: load_config().get("scoring_weights", DEFAULT_WEIGHTS).copy(). -/
def get_weights (f : ConfigFile) : Except PyError JVal := do
  let v ← pyDictGet (load_config f) "scoring_weights" (.obj DEFAULT_WEIGHTS)
  pyCopy v

/-- api/config.py, get_min_score_raw: float(load_config().get("min_score_raw", DEFAULT_MIN_SCORE_RAW)). -/
def get_min_score_raw (f : ConfigFile) : Except PyError ℚ := do
  let v ← pyDictGet (load_config f) "min_score_raw" (.num DEFAULT_MIN_SCORE_RAW)
  pyFloat v

/-- api/config.py, get_max_results: int(load_config().get("max_results", DEFAULT_MAX_RESULTS)). -/
def get_max_results (f : ConfigFile) : Except PyError ℤ := do
  let v ← pyDictGet (load_config f) "max_results" (.num (DEFAULT_MAX_RESULTS : ℚ))
  pyInt v

/-- The failure modes named by the claim: missing, unreadable, invalid JSON. -/
def ConfigFile.isFailure : ConfigFile → Prop :=
  fun f => f = .missing ∨ f = .unreadable ∨ f = .invalidJson

/-! ## es_layer/indexer.py: candidate documents and bulk indexing -/

/-- es_layer/mappings.py: DENSE_DIMS = 1536. -/
def DENSE_DIMS : ℕ := 1536

/-- One entry of a candidate languages list: lang and degree. -/
structure LangEntry where
  lang : String
  degree : String
deriving DecidableEq, Repr

/-- es_layer/indexer.py, _ensure_nonzero_vector: None, an empty or
wrong-dimension vector gives None; a zero vector is replaced by the unit
vector along the first dimension; otherwise the vector is kept. -/
def ensureNonzeroVector (vec : Option (List ℚ)) : Option (List ℚ) :=
  match vec with
  | none => none
  | some v =>
    if v = [] ∨ v.length ≠ DENSE_DIMS then none
    else if 0 < (v.map (fun x => x * x)).sum then some v
    else some ((1:ℚ) :: List.replicate (DENSE_DIMS - 1) 0)

/-- A transformed candidate as fed to bulk indexing, restricted to the
fields the verified claims read (the remaining _candidate_doc fields are
copied through independently and do not influence these claims). -/
structure CandidateRecord where
  post_id : ℤ
  location : Option (Option ℚ × Option ℚ)
  pensum_desired : Option ℤ
  pensum_from : Option ℤ
  available_from : Option String
  languages : List LangEntry
  aggregated_title_embedding : Option (List ℚ)
deriving DecidableEq

/-- The Elasticsearch candidate document (es_layer/indexer.py,
_candidate_doc), restricted to the same fields. -/
structure CandidateDoc where
  post_id : ℤ
  location : Option (ℚ × ℚ)
  pensum_desired : ℤ
  pensum_from : ℤ
  available_from : Option String
  languages : List LangEntry
  aggregated_title_embedding : Option (List ℚ)
deriving DecidableEq

/-- es_layer/indexer.py, _candidate_doc: location is set only when both lat
and lon are present; pensum defaults 100 / 0; the title embedding passes
through _ensure_nonzero_vector. -/
def candidateDoc (c : CandidateRecord) : CandidateDoc :=
  let loc := c.location.getD (none, none)
  { post_id := c.post_id
    location := match loc.1, loc.2 with
      | some la, some lo => some (la, lo)
      | _, _ => none
    pensum_desired := c.pensum_desired.getD 100
    pensum_from := c.pensum_from.getD 0
    available_from := c.available_from
    languages := c.languages
    aggregated_title_embedding := ensureNonzeroVector c.aggregated_title_embedding }

/-- es_layer/indexer.py, bulk_index_candidates, gen(): the stream of
(_id, _source) actions sent to streaming_bulk; a candidate whose document
has no location or no aggregated title embedding is skipped. -/
def bulkIndexActions (cs : List CandidateRecord) : List (String × CandidateDoc) :=
  cs.filterMap (fun c =>
    let doc := candidateDoc c
    if doc.location = none then none
    else if doc.aggregated_title_embedding = none then none
    else some (toString c.post_id, doc))

/-- A concrete complete candidate: both location coordinates and a nonzero
1536-dimension title embedding. -/
def exampleCandidate : CandidateRecord :=
  { post_id := 7
    location := some (some (47/10), some (85/10))
    pensum_desired := some 80
    pensum_from := some 40
    available_from := none
    languages := []
    aggregated_title_embedding := some ((1:ℚ) :: List.replicate (DENSE_DIMS - 1) 0) }

/-! ## etl/transformer.py: seniority inference -/

/-- Python str.strip() on a character list: whitespace removed from both ends. -/
def pyStripList (l : List Char) : List Char :=
  ((l.dropWhile Char.isWhitespace).reverse.dropWhile Char.isWhitespace).reverse

/-- Python str.strip(). -/
def pyStrip (s : String) : String := ⟨pyStripList s.data⟩

/-- Python str.lower(). Lean Char.toLower lowers ASCII; Python also lowers
further Unicode letters, which none of the verified claims exercise. -/
def pyLower (s : String) : String := ⟨s.data.map Char.toLower⟩

/-- A word character for the regex metacharacter backslash-b in Python re
(Unicode mode): ASCII alphanumerics, underscore, and non-ASCII letters or
digits. Code points at or above 0x80 are approximated as word characters;
every non-ASCII character occurring in the seniority keyword vocabulary is
a letter, for which this is exact. -/
def isWordChar (c : Char) : Bool := c.isAlphanum || c == '_' || decide (128 ≤ c.toNat)

/-- Word-character test at an optional adjacent character (none at the
string edge: not a word character). -/
def wordAt : Option Char → Bool
  | none => false
  | some c => isWordChar c

/-- The keyword kw matches at this split point with word boundaries on both
sides: kw is a prefix of rest, and on each side exactly one of the two
adjacent characters is a word character. -/
def wbMatchAt (prev : Option Char) (kw rest : List Char) : Bool :=
  kw.isPrefixOf rest &&
  (wordAt prev != wordAt kw.head?) &&
  (wordAt kw.getLast? != wordAt (rest.drop kw.length).head?)

/-- Scan all split points of the remaining title characters. -/
def searchWordAux (kw : List Char) : Option Char → List Char → Bool
  | prev, [] => wbMatchAt prev kw []
  | prev, c :: cs => wbMatchAt prev kw (c :: cs) || searchWordAux kw (some c) cs

/-- re.search(r"..." , title) for the pattern backslash-b + re.escape(kw) +
backslash-b used in etl/transformer.py, _match_seniority (the escape is the
identity on the keyword vocabulary, which has no regex metacharacters). -/
def reSearchWord (kw title : String) : Bool := searchWordAux kw.data none title.data

/-- etl/transformer.py: SENIORITY_LEVELS (order matters, least to most senior). -/
def SENIORITY_LEVELS : List String :=
  ["junior", "mid", "senior", "manager", "director", "executive"]

/-- etl/transformer.py: SENIORITY_KEYWORDS. -/
def SENIORITY_KEYWORDS : List (String × List String) :=
  [("junior", ["junior", "assistant", "trainee", "praktikant", "azubi", "ausbildung"]),
   ("mid", ["sachbearbeiter", "specialist", "coordinator", "fachmann", "fachfrau", "mitarbeiter"]),
   ("senior", ["senior", "lead ", "expert", "principal", "fachexperte", "erfahren"]),
   ("manager", ["manager", "leiter", "head of", "abteilungsleiter", "teamleiter", "team lead"]),
   ("director", ["director", "vp ", "vice president", "bereichsleiter", "vice president"]),
   ("executive", ["ceo", "cfo", "cto", "coo", "geschäftsführer", "vorsitzender", "präsident", "president"])]

/-- The keyword list of one tier. -/
def keywordsFor (level : String) : List String :=
  (SENIORITY_KEYWORDS.lookup level).getD []

/-- Some keyword of the tier matches the title as a whole word (the inner
loop of _match_seniority). -/
def tierMatches (level : String) (title : String) : Bool :=
  (keywordsFor level).any (fun kw => reSearchWord (pyStrip kw) title)

/-- etl/transformer.py, _match_seniority: scan tiers from most senior to
least senior, return the first tier with a whole-word keyword match, else
"mid". -/
def _match_seniority (title : String) : String :=
  (SENIORITY_LEVELS.reverse.find? (fun level => tierMatches level title)).getD "mid"

/-- One parsed work experience entry (etl/transformer.py,
parse_work_experiences result shape). -/
structure WorkExperience where
  raw_title : String
  start_year : ℤ
  end_year : ℤ
  years_in_role : ℤ
  company : String
  industry : String
  description : String
deriving DecidableEq

/-- etl/transformer.py, infer_seniority: from the most recent (first) work
experience title, lowercased; "mid" for an empty list or empty title. -/
def infer_seniority (wes : List WorkExperience) : String :=
  match wes with
  | [] => "mid"
  | e :: _ =>
    let title := pyLower e.raw_title
    if title = "" then "mid" else _match_seniority title

/-- A concrete work history whose most recent title holds both an executive
keyword (cfo) and a junior keyword (junior) as whole words. -/
def cfoExperience : WorkExperience :=
  { raw_title := "Junior CFO", start_year := 2018, end_year := 2026,
    years_in_role := 8, company := "", industry := "", description := "" }

/-! ## embeddings/generator.py: weighted mean embedding -/

/-- embeddings/generator.py: DIMS = 1536. -/
def DIMS : ℕ := 1536

/-- embeddings/generator.py, weighted_mean_embedding. The per-text
embedding lookup _embed_batch is abstracted as a function embed (it fills
every slot: cache hit, API result, or zero vector for blank text, so no
None entries remain and the dead v-is-None skip is omitted). -/
def weighted_mean_embedding (embed : String → List ℚ)
    (items : List (String × ℚ)) : Option (List ℚ) :=
  if items = [] then none
  else
    let weights := items.map (fun x => max 0 x.2)
    let total_w := weights.sum
    if total_w ≤ 0 then none
    else
      let vecs := items.map (fun x => embed x.1)
      let out := (List.zip vecs weights).foldl
        (fun out vw => out.zipWith (fun o vi => o + vi * vw.2) vw.1)
        (List.replicate DIMS 0)
      some (out.map (fun x => x / total_w))

/-! ## es_layer/queries.py: hard filters -/

/-- Python str.upper(). ASCII uppercasing, as for pyLower. -/
def pyUpper (s : String) : String := ⟨s.data.map Char.toUpper⟩

/-- es_layer/queries.py, _acceptable_degrees: map CEFR / native to WP degree
labels (the source tuple also lists "NATIVE " with a trailing space). -/
def _acceptable_degrees (min_level : String) : List String :=
  if min_level = "C1" ∨ min_level = "C2" ∨ min_level = "NATIVE" ∨ min_level = "NATIVE " then
    ["Mother tongue", "Fluent"]
  else
    ["Mother tongue", "Fluent", "Intermediate"]

/-- One required-language dict as consumed by build_hard_filters
(lang_req.get("name"), lang_req.get("lang"), lang_req.get("min_level")). -/
structure LangRequirement where
  name : Option String
  lang : Option String
  min_level : Option String

/-- lang_req.get("name") or lang_req.get("lang", ""). -/
def langReqName (r : LangRequirement) : String :=
  pyOrStr r.name (r.lang.getD "")

/-- (lang_req.get("min_level") or "B2").upper(). -/
def langReqMinLevel (r : LangRequirement) : String :=
  pyUpper (pyOrStr r.min_level "B2")

/-- The Elasticsearch filter clauses produced by build_hard_filters, as a
small query AST (one constructor per clause shape appearing there). -/
inductive ESFilter where
  | fieldExists (field : String)
  | geoDistance (radius_km : ℤ) (lat lon : ℚ)
  | rangeGte (field : String) (bound : ℤ)
  | rangeLte (field : String) (bound : ℤ)
  | rangeLteDate (field : String) (bound : String)
  | mustNotExists (field : String)
  | boolShould2 (a b : ESFilter)
  | nestedLanguages (name : String) (degrees : List String)

/-- es_layer/queries.py, build_hard_filters. -/
def build_hard_filters (location_lat location_lon : ℚ) (radius_km : ℤ)
    (pensum_min pensum_max : ℤ) (required_languages : List LangRequirement)
    (required_available_before : Option String) : List ESFilter :=
  [ESFilter.fieldExists "location",
   ESFilter.geoDistance radius_km location_lat location_lon,
   ESFilter.rangeGte "pensum_desired" pensum_min,
   ESFilter.rangeLte "pensum_from" pensum_max]
  ++ (match required_available_before with
      | some d =>
        if d = "" then []
        else [ESFilter.boolShould2 (ESFilter.mustNotExists "available_from")
                (ESFilter.rangeLteDate "available_from" d)]
      | none => [])
  ++ required_languages.filterMap (fun r =>
        let name := langReqName r
        let degrees := _acceptable_degrees (langReqMinLevel r)
        if name ≠ "" ∧ degrees ≠ [] then
          some (ESFilter.nestedLanguages name degrees)
        else none)

/-- Lexicographic comparison of character lists; on ISO yyyy-MM-dd strings
this is exactly the chronological date order Elasticsearch applies to the
available_from range filter. -/
def lexLeChars : List Char → List Char → Bool
  | [], _ => true
  | _ :: _, [] => false
  | a :: as, b :: bs => if a < b then true else if b < a then false else lexLeChars as bs

/-- Standard Elasticsearch filter-context semantics of the clause shapes
emitted by build_hard_filters, evaluated against an indexed candidate
document; geo distance is abstracted by the withinKm predicate. A range or
geo clause on a missing field does not match; bool/should with
minimum_should_match 1 is disjunction; the nested languages clause asks for
one languages entry matching both the term and the terms clause. -/
def evalFilter (withinKm : ℚ → ℚ → ℤ → ℚ × ℚ → Bool) (c : CandidateDoc) :
    ESFilter → Bool
  | .fieldExists f =>
    if f = "location" then c.location.isSome
    else if f = "available_from" then c.available_from.isSome
    else false
  | .geoDistance r la lo =>
    match c.location with
    | some p => withinKm la lo r p
    | none => false
  | .rangeGte f b =>
    if f = "pensum_desired" then decide (b ≤ c.pensum_desired)
    else if f = "pensum_from" then decide (b ≤ c.pensum_from)
    else false
  | .rangeLte f b =>
    if f = "pensum_desired" then decide (c.pensum_desired ≤ b)
    else if f = "pensum_from" then decide (c.pensum_from ≤ b)
    else false
  | .rangeLteDate f d =>
    if f = "available_from" then
      match c.available_from with
      | some a => lexLeChars a.data d.data
      | none => false
    else false
  | .mustNotExists f =>
    !(if f = "location" then c.location.isSome
      else if f = "available_from" then c.available_from.isSome
      else false)
  | .boolShould2 a b => evalFilter withinKm c a || evalFilter withinKm c b
  | .nestedLanguages name degrees =>
    c.languages.any (fun l => l.lang == name && degrees.contains l.degree)

/-- A candidate passes the filter context when every clause matches. -/
def candidateAdmitted (withinKm : ℚ → ℚ → ℤ → ℚ × ℚ → Bool) (c : CandidateDoc)
    (filters : List ESFilter) : Bool :=
  filters.all (evalFilter withinKm c)

/-- A concrete indexed candidate admitted by a concrete filter context. -/
def filterDemoDoc : CandidateDoc :=
  { post_id := 11, location := some (47/10, 85/10), pensum_desired := 80,
    pensum_from := 40, available_from := some "2026-03-01",
    languages := [{ lang := "German", degree := "Fluent" }],
    aggregated_title_embedding := none }

/-- A concrete required language (German at minimum level b2). -/
def filterDemoReq : LangRequirement :=
  { name := some "German", lang := none, min_level := some "b2" }

/-! ## etl/title_standardizer.py: cached title mapping -/

/-- The SQLite title_mappings table as an association list, most recent
write first; INSERT OR REPLACE on the primary key is modelled by
prepending, with List.lookup returning the most recent value. -/
def TitleCache := List (String × String)

/-- etl/title_standardizer.py, get_cached_mapping: SELECT by the trimmed
raw title. -/
def get_cached_mapping (raw_title : String) (cache : List (String × String)) :
    Option String :=
  cache.lookup (pyStrip raw_title)

/-- etl/title_standardizer.py, set_cached_mapping: INSERT OR REPLACE of the
trimmed raw title mapped to the trimmed standardized title. -/
def set_cached_mapping (raw_title std_title : String)
    (cache : List (String × String)) : List (String × String) :=
  (pyStrip raw_title, pyStrip std_title) :: cache

/-- etl/title_standardizer.py: BATCH_SIZE = 20. -/
def BATCH_SIZE : ℕ := 20

/-- The first loop of map_titles_batch: strip each raw title, skip empty
ones, serve cache hits into the result dict, append misses to to_map (in
input order, duplicates kept, as the source does). The result dict is an
association list with most recent assignment first; phase-one duplicate
keys always carry the same cached value, so its lookup agrees with the
Python dict. -/
def scanTitles (cache : List (String × String)) :
    List String → List (String × String) × List String
  | [] => ([], [])
  | t :: ts =>
    let rest := scanTitles cache ts
    let t' := pyStrip t
    if t' = "" then rest
    else
      match get_cached_mapping t' cache with
      | some v => ((t', v) :: rest.1, rest.2)
      | none => (rest.1, t' :: rest.2)

/-- The batching loop bounds: for i in range(0, len(to_map), BATCH_SIZE). -/
def chunkBatches : List String → List (List String)
  | [] => []
  | t :: ts => ((t :: ts).take BATCH_SIZE) :: chunkBatches ((t :: ts).drop BATCH_SIZE)
termination_by l => l.length
decreasing_by
  simp only [List.length_drop, List.length_cons, BATCH_SIZE]
  omega

/-- std = (std or "NONE").strip() applied to one value returned by the
model call. -/
def normStd (std : String) : String := pyStrip (if std = "" then "NONE" else std)

/-- The mapping obtained for one batch: the parsed model response on
success, or every batch title degraded to "NONE" when the call (or its
JSON parsing) raises. -/
def batchMapping (api : List String → Except Unit (List (String × String)))
    (b : List String) : List (String × String) :=
  match api b with
  | .ok m => m
  | .error _ => b.map (fun t => (t, "NONE"))

/-- The inner write loop: for raw, std in mapping.items(): normalize std,
assign result[raw] and cache the pair. -/
def applyMapping (m : List (String × String))
    (res cache : List (String × String)) :
    List (String × String) × List (String × String) :=
  m.foldl (fun acc rs =>
    let std := normStd rs.2
    ((rs.1, std) :: acc.1, set_cached_mapping rs.1 std acc.2)) (res, cache)

/-- The batching loop of map_titles_batch; the third component counts
model calls issued (one per batch, also on failure). -/
def processBatches (api : List String → Except Unit (List (String × String))) :
    List (List String) → List (String × String) → List (String × String) →
    List (String × String) × List (String × String) × ℕ
  | [], res, cache => (res, cache, 0)
  | b :: bs, res, cache =>
    let rc := applyMapping (batchMapping api b) res cache
    let rest := processBatches api bs rc.1 rc.2
    (rest.1, rest.2.1, rest.2.2 + 1)

/-- etl/title_standardizer.py, map_titles_batch: returns the raw-to-standard
dict, the updated cache, and the number of external calls issued. The
canonical titles list only shapes the prompt text and is omitted; the
external call is abstracted by api. Total: every call failure is caught,
so the operation itself never raises. -/
def map_titles_batch (api : List String → Except Unit (List (String × String)))
    (raw_titles : List String) (cache : List (String × String)) :
    List (String × String) × List (String × String) × ℕ :=
  if (scanTitles cache raw_titles).2 = [] then ((scanTitles cache raw_titles).1, cache, 0)
  else processBatches api (chunkBatches (scanTitles cache raw_titles).2)
    (scanTitles cache raw_titles).1 cache

/-- All (raw, std) pairs obtained across batches, most recent first (the
order in which prepended writes stack up). -/
def allMappingEntries (api : List String → Except Unit (List (String × String)))
    (batches : List (List String)) : List (String × String) :=
  ((batches.map (fun b => (batchMapping api b).reverse)).reverse).flatten

/-! ## Theorems -/

lemma rwya_of_nonpos {y : ℤ} (h : y ≤ 0) : recencyWeightOfYearsAgo y = 1 := by
  unfold recencyWeightOfYearsAgo
  rw [if_pos h]

lemma rwya_of_lin {y : ℤ} (h1 : 0 < y) (h2 : y ≤ 5) :
    recencyWeightOfYearsAgo y = linBranch y := by
  unfold recencyWeightOfYearsAgo
  rw [if_neg (by omega), if_pos h2]

lemma rwya_of_mid {y : ℤ} (h1 : 5 < y) (h2 : y ≤ 15) :
    recencyWeightOfYearsAgo y = midBranch y := by
  unfold recencyWeightOfYearsAgo
  rw [if_neg (by omega), if_neg (by omega), if_pos h2]

lemma rwya_of_late {y : ℤ} (h : 15 < y) :
    recencyWeightOfYearsAgo y = lateBranch y := by
  unfold recencyWeightOfYearsAgo
  rw [if_neg (by omega), if_neg (by omega), if_neg (by omega)]

lemma rwya_step (y : ℤ) :
    recencyWeightOfYearsAgo (y + 1) ≤ recencyWeightOfYearsAgo y := by
  rcases le_or_lt (y + 1) 0 with h0 | h0
  · rw [rwya_of_nonpos h0, rwya_of_nonpos (by omega)]
  · rcases le_or_lt (y + 1) 5 with h5 | h5
    · rw [rwya_of_lin h0 h5]
      rcases le_or_lt y 0 with hy | hy
      · have hy0 : y = 0 := by omega
        subst hy0
        rw [rwya_of_nonpos le_rfl]
        unfold linBranch
        norm_num
      · rw [rwya_of_lin hy (by omega)]
        unfold linBranch
        push_cast
        linarith
    · rcases le_or_lt (y + 1) 15 with h15 | h15
      · rw [rwya_of_mid h5 h15]
        rcases le_or_lt y 5 with hy | hy
        · have hy5 : y = 5 := by omega
          subst hy5
          rw [rwya_of_lin (by omega) le_rfl]
          unfold midBranch linBranch
          have ht : ((5 + 1 - 5 : ℤ)).toNat = 1 := rfl
          rw [ht]
          norm_num
        · rw [rwya_of_mid hy (by omega)]
          unfold midBranch
          have ht : (y + 1 - 5).toNat = (y - 5).toNat + 1 := by omega
          rw [ht, pow_succ]
          have hp : (0:ℚ) < (93/100) ^ (y - 5).toNat := by positivity
          nlinarith
      · rw [rwya_of_late h15]
        rcases le_or_lt y 15 with hy | hy
        · have hy15 : y = 15 := by omega
          subst hy15
          rw [rwya_of_mid (by omega) le_rfl]
          unfold midBranch lateBranch
          have h1 : ((15 + 1 - 15 : ℤ)).toNat = 1 := rfl
          have h2 : ((15 - 5 : ℤ)).toNat = 10 := rfl
          rw [h1, h2]
          norm_num
        · rw [rwya_of_late hy]
          unfold lateBranch
          have ht : (y + 1 - 15).toNat = (y - 15).toNat + 1 := by omega
          rw [ht, pow_succ]
          have hp : (0:ℚ) < (85/100) ^ (y - 15).toNat := by positivity
          nlinarith

lemma rwya_antitone {a b : ℤ} (h : a ≤ b) :
    recencyWeightOfYearsAgo b ≤ recencyWeightOfYearsAgo a := by
  exact Int.le_induction
    (P := fun b => recencyWeightOfYearsAgo b ≤ recencyWeightOfYearsAgo a)
    le_rfl (fun n _ ih => (rwya_step n).trans ih) b h

lemma rwya_pos (y : ℤ) : 0 < recencyWeightOfYearsAgo y := by
  rcases le_or_lt y 0 with h0 | h0
  · rw [rwya_of_nonpos h0]; norm_num
  · rcases le_or_lt y 5 with h5 | h5
    · rw [rwya_of_lin h0 h5]
      unfold linBranch
      have : (y : ℚ) ≤ 5 := by exact_mod_cast h5
      linarith
    · rcases le_or_lt y 15 with h15 | h15
      · rw [rwya_of_mid h5 h15]
        unfold midBranch
        positivity
      · rw [rwya_of_late h15]
        unfold lateBranch
        positivity

lemma rwya_lt_one {y : ℤ} (h0 : 0 < y) : recencyWeightOfYearsAgo y < 1 := by
  rcases le_or_lt y 5 with h5 | h5
  · rw [rwya_of_lin h0 h5]
    unfold linBranch
    have : (1 : ℚ) ≤ (y : ℚ) := by exact_mod_cast h0
    linarith
  · rcases le_or_lt y 15 with h15 | h15
    · rw [rwya_of_mid h5 h15]
      unfold midBranch
      have hq : ((93:ℚ)/100) ^ (y - 5).toNat ≤ 1 :=
        pow_le_one₀ (by norm_num) (by norm_num)
      linarith
    · rw [rwya_of_late h15]
      unfold lateBranch
      have hq : ((85:ℚ)/100) ^ (y - 15).toNat ≤ 1 :=
        pow_le_one₀ (by norm_num) (by norm_num)
      linarith

lemma rwya_le_one (y : ℤ) : recencyWeightOfYearsAgo y ≤ 1 := by
  rcases le_or_lt y 0 with h0 | h0
  · rw [rwya_of_nonpos h0]
  · exact le_of_lt (rwya_lt_one h0)

/-- C8: for every integer end_year, recency_weight(end_year) lies in (0, 1],
and equals exactly 1 if and only if end_year ≥ CURRENT_YEAR. -/
theorem recency_weight_range_one_iff (e : ℤ) :
    0 < recency_weight e ∧ recency_weight e ≤ 1 ∧
      (recency_weight e = 1 ↔ CURRENT_YEAR ≤ e) := by
  unfold recency_weight
  refine ⟨rwya_pos _, rwya_le_one _, ?_, ?_⟩
  · intro h1
    by_contra hlt
    have hy : 0 < CURRENT_YEAR - e := by unfold CURRENT_YEAR at *; omega
    exact absurd h1 (ne_of_lt (rwya_lt_one hy))
  · intro h
    exact rwya_of_nonpos (by omega)

/-- C2 counterexample: the claim that the 6-15-year geometric branch at
years_ago = 15 equals the >15-year branch formula at years_ago = 15 (within
floating tolerance) is false: the two differ by more than 1/100
(exactly, 0.40 - 0.80 * 0.93^10 ≈ 0.0128). -/
theorem recency_boundary15_mismatch :
    midBranch 15 ≠ lateBranch 15 ∧ (1/100 : ℚ) < lateBranch 15 - midBranch 15 := by
  constructor
  · intro h
    have : (80/100 : ℚ) * (93/100) ^ (10:ℕ) = (40/100) * (85/100) ^ (0:ℕ) := h
    norm_num at this
  · show (1/100 : ℚ) < (40/100) * (85/100) ^ (0:ℕ) - (80/100) * (93/100) ^ (10:ℕ)
    norm_num

/-- C2 amended: recency_weight is monotonically non-increasing in
years_ago (equivalently, non-decreasing in end_year) for all integers, and
the linear branch agrees with the 6-15-year geometric branch at
years_ago = 5; but at years_ago = 15 the 6-15-year geometric branch value
(0.80 * 0.93^10 ≈ 0.3872) is strictly below the >15-year branch formula
value (0.40), the gap lying strictly between 0.01 and 0.02 — far beyond
floating tolerance. Monotonicity still holds across that boundary. -/
theorem recency_weight_monotone_and_boundaries :
    (∀ a b : ℤ, a ≤ b → recencyWeightOfYearsAgo b ≤ recencyWeightOfYearsAgo a) ∧
    (∀ e1 e2 : ℤ, e1 ≤ e2 → recency_weight e1 ≤ recency_weight e2) ∧
    linBranch 5 = midBranch 5 ∧
    midBranch 15 < lateBranch 15 ∧
    (1/100 : ℚ) < lateBranch 15 - midBranch 15 ∧
    lateBranch 15 - midBranch 15 < 2/100 := by
  refine ⟨fun a b h => rwya_antitone h,
          fun e1 e2 h => rwya_antitone (by omega),
          ?_, ?_, ?_, ?_⟩
  · show (1 : ℚ) - (5:ℤ) * (4/100) = (80/100) * (93/100) ^ ((5:ℤ) - 5).toNat
    norm_num
  · show (80/100 : ℚ) * (93/100) ^ (10:ℕ) < (40/100) * (85/100) ^ (0:ℕ)
    norm_num
  · show (1/100 : ℚ) < (40/100) * (85/100) ^ (0:ℕ) - (80/100) * (93/100) ^ (10:ℕ)
    norm_num
  · show (40/100 : ℚ) * (85/100) ^ (0:ℕ) - (80/100) * (93/100) ^ (10:ℕ) < 2/100
    norm_num

/-- Witness for the amended C2 theorem at concrete inputs. -/
theorem recency_weight_monotone_and_boundaries_witness :
    recencyWeightOfYearsAgo 7 ≤ recencyWeightOfYearsAgo 3 ∧
      recency_weight 2010 ≤ recency_weight 2024 :=
  ⟨recency_weight_monotone_and_boundaries.1 3 7 (by norm_num),
   recency_weight_monotone_and_boundaries.2.1 2010 2024 (by norm_num)⟩

lemma pyRoundHalfEven_floor_or_succ (x : ℚ) :
    pyRoundHalfEven x = ⌊x⌋ ∨ pyRoundHalfEven x = ⌊x⌋ + 1 := by
  simp only [pyRoundHalfEven]
  split_ifs <;> simp

lemma pyRoundHalfEven_le (x : ℚ) : (pyRoundHalfEven x : ℚ) ≤ x + 1/2 := by
  have hf := Int.floor_le x
  simp only [pyRoundHalfEven]
  split_ifs with h1 h2 h3 <;> push_cast <;> linarith

lemma le_pyRoundHalfEven (x : ℚ) : x - 1/2 ≤ (pyRoundHalfEven x : ℚ) := by
  have hf := Int.lt_floor_add_one x
  simp only [pyRoundHalfEven]
  split_ifs with h1 h2 h3 <;> push_cast <;> linarith

lemma pyRound1_nonneg {x : ℚ} (h : 0 ≤ x) : 0 ≤ pyRound1 x := by
  unfold pyRound1
  have h0 : (0:ℤ) ≤ ⌊x * 10⌋ := Int.floor_nonneg.2 (by linarith)
  rcases pyRoundHalfEven_floor_or_succ (x * 10) with he | he <;> rw [he] <;>
    push_cast <;>
    · have : ((⌊x * 10⌋ : ℤ) : ℚ) ≥ 0 := by exact_mod_cast h0
      linarith

lemma pyRound1_le_hundred {x : ℚ} (h : x ≤ 100) : pyRound1 x ≤ 100 := by
  unfold pyRound1
  have hle : (pyRoundHalfEven (x * 10) : ℚ) ≤ x * 10 + 1/2 := pyRoundHalfEven_le _
  have hlt : (pyRoundHalfEven (x * 10) : ℚ) < 1001 := by linarith
  have hint : pyRoundHalfEven (x * 10) ≤ 1000 := by exact_mod_cast Int.lt_add_one_iff.1 (by exact_mod_cast hlt)
  have : (pyRoundHalfEven (x * 10) : ℚ) ≤ 1000 := by exact_mod_cast hint
  linarith

/-- C3: for every raw hit score s, the displayed total is the clamp of
s / 2 * 100 to [0, 100] (rounded to one decimal for display) and stays in
[0, 100] even for out-of-range raw scores; each of the seven displayed
per-dimension scores is that clamped total multiplied by the active
configured weight for its dimension (rounded for display) — an
apportionment of the single total by weight, so the breakdown depends on
the raw score only through the clamped total. -/
theorem score_breakdown_apportionment (w : List (String × ℚ)) (s : ℚ) :
    0 ≤ totalNorm s ∧ totalNorm s ≤ 100 ∧
    (0 ≤ s / 2 * 100 → s / 2 * 100 ≤ 100 → totalNorm s = s / 2 * 100) ∧
    (mkScoreBreakdown w s).total = pyRound1 (totalNorm s) ∧
    0 ≤ (mkScoreBreakdown w s).total ∧ (mkScoreBreakdown w s).total ≤ 100 ∧
    (mkScoreBreakdown w s).title_score = pyRound1 (totalNorm s * weightGet w "title" (38/100)) ∧
    (mkScoreBreakdown w s).industry_score = pyRound1 (totalNorm s * weightGet w "industry" (19/100)) ∧
    (mkScoreBreakdown w s).experience_score = pyRound1 (totalNorm s * weightGet w "experience" (14/100)) ∧
    (mkScoreBreakdown w s).skills_score = pyRound1 (totalNorm s * weightGet w "skills" (1/10)) ∧
    (mkScoreBreakdown w s).seniority_score = pyRound1 (totalNorm s * weightGet w "seniority" (7/100)) ∧
    (mkScoreBreakdown w s).education_score = pyRound1 (totalNorm s * weightGet w "education" (7/100)) ∧
    (mkScoreBreakdown w s).language_score = pyRound1 (totalNorm s * weightGet w "language" (5/100)) ∧
    (∀ s2, totalNorm s = totalNorm s2 → mkScoreBreakdown w s = mkScoreBreakdown w s2) := by
  have h0 : 0 ≤ totalNorm s := by
    unfold totalNorm
    rcases le_total (100:ℚ) (max 0 (s / 2 * 100)) with h | h
    · rw [min_eq_left h]; norm_num
    · rw [min_eq_right h]; exact le_max_left _ _
  have h100 : totalNorm s ≤ 100 := min_le_left _ _
  refine ⟨h0, h100, ?_, rfl, pyRound1_nonneg h0, pyRound1_le_hundred h100,
          rfl, rfl, rfl, rfl, rfl, rfl, rfl, ?_⟩
  · intro ha hb
    unfold totalNorm
    rw [max_eq_right ha, min_eq_right hb]
  · intro s2 h
    unfold mkScoreBreakdown
    rw [h]

/-- Witness for C3 at a concrete out-of-range raw score and empty weights. -/
theorem score_breakdown_apportionment_witness :
    totalNorm (3/2) = 3/2 / 2 * 100 ∧ mkScoreBreakdown [] 5 = mkScoreBreakdown [] 7 :=
  ⟨(score_breakdown_apportionment [] (3/2)).2.2.1 (by norm_num) (by norm_num),
   ((score_breakdown_apportionment [] 5).2.2.2.2.2.2.2.2.2.2.2.2.2) 7 (by
      unfold totalNorm; norm_num)⟩

/-- C7: whenever the scoring search execution fails — BadRequestError
(malformed scoring expression, backend rejection) or any other exception —
run_match returns a well-formed response with an empty match list, a
non-null diagnostic message starting with "Search failed: ", and a zero
total; the failure is terminal for the request (the single outcome is
consumed once, never retried) and no fault is raised to the caller. -/
theorem run_match_failure_wellformed (w : List (String × ℚ)) (e : SearchFailure) :
    (runMatchResult w (Except.error e)).matchList = [] ∧
    (∃ d, (runMatchResult w (Except.error e)).message = some ("Search failed: " ++ d)) ∧
    (runMatchResult w (Except.error e)).total_above_threshold = 0 := by
  cases e with
  | badRequest base body => exact ⟨rfl, ⟨extractBadRequestDetail base body, rfl⟩, rfl⟩
  | other msg => exact ⟨rfl, ⟨msg, rfl⟩, rfl⟩

/-- C10 counterexample: a configuration file holding valid JSON that is not
an object — here the JSON array [] — makes every configuration read raise
AttributeError (a list has no .get), so the claim that every configuration
read always succeeds is false. -/
theorem config_reads_nonobject_counterexample :
    get_weights (ConfigFile.valid (JVal.arr [])) = Except.error PyError.attributeError ∧
    get_min_score_raw (ConfigFile.valid (JVal.arr [])) = Except.error PyError.attributeError ∧
    get_max_results (ConfigFile.valid (JVal.arr [])) = Except.error PyError.attributeError :=
  ⟨rfl, rfl, rfl⟩

/-- C10 amended: load_config never raises — if the configuration file is
missing, unreadable, or holds invalid JSON, it silently returns the default
configuration (default weights, default minimum raw score, default max
results), and in those cases get_weights, get_min_score_raw and
get_max_results all succeed with the defaults; but when the file holds
valid JSON that is not a JSON object, the readers raise AttributeError. -/
theorem load_config_defaults_amended (f : ConfigFile) (h : f.isFailure) :
    load_config f = defaultConfig ∧
    get_weights f = Except.ok (JVal.obj DEFAULT_WEIGHTS) ∧
    get_min_score_raw f = Except.ok DEFAULT_MIN_SCORE_RAW ∧
    get_max_results f = Except.ok DEFAULT_MAX_RESULTS := by
  rcases h with h | h | h <;> subst h <;> exact ⟨rfl, rfl, rfl, by
    show Except.ok (if (0:ℚ) ≤ 20 then ⌊(20:ℚ)⌋ else -⌊-(20:ℚ)⌋) = Except.ok DEFAULT_MAX_RESULTS
    norm_num [DEFAULT_MAX_RESULTS]⟩

/-- Witness for the amended C10 theorem at the missing-file state. -/
theorem load_config_defaults_amended_witness :
    load_config ConfigFile.missing = defaultConfig ∧
    get_weights ConfigFile.missing = Except.ok (JVal.obj DEFAULT_WEIGHTS) ∧
    get_min_score_raw ConfigFile.missing = Except.ok DEFAULT_MIN_SCORE_RAW ∧
    get_max_results ConfigFile.missing = Except.ok DEFAULT_MAX_RESULTS :=
  load_config_defaults_amended ConfigFile.missing (Or.inl rfl)

/-- C9: a candidate whose document has no geographic point or no aggregated
title embedding is never written to the search index; the actions actually
emitted are exactly the candidates whose documents have both, so every
indexed candidate has a location and a title embedding. -/
theorem bulk_index_skips_incomplete (cs : List CandidateRecord) :
    (∀ a ∈ bulkIndexActions cs,
        a.2.location.isSome ∧ a.2.aggregated_title_embedding.isSome) ∧
    bulkIndexActions cs =
      (cs.filter (fun c => (candidateDoc c).location.isSome &&
          (candidateDoc c).aggregated_title_embedding.isSome)).map
        (fun c => (toString c.post_id, candidateDoc c)) := by
  have heq : bulkIndexActions cs =
      (cs.filter (fun c => (candidateDoc c).location.isSome &&
          (candidateDoc c).aggregated_title_embedding.isSome)).map
        (fun c => (toString c.post_id, candidateDoc c)) := by
    induction cs with
    | nil => rfl
    | cons c rest ih =>
      simp only [bulkIndexActions, List.filterMap_cons, List.filter_cons] at *
      by_cases h1 : (candidateDoc c).location = none
      · simp [h1, ih]
      · by_cases h2 : (candidateDoc c).aggregated_title_embedding = none
        · simp [h1, h2, ih, Option.isSome_iff_ne_none]
        · simp [h1, h2, ih, Option.isSome_iff_ne_none]
  refine ⟨?_, heq⟩
  intro a ha
  rw [heq] at ha
  rcases List.mem_map.1 ha with ⟨c, hc, rfl⟩
  have := List.of_mem_filter hc
  simp only [Bool.and_eq_true] at this
  exact ⟨this.1, this.2⟩

lemma ensureNonzeroVector_unit :
    ensureNonzeroVector (some ((1:ℚ) :: List.replicate (DENSE_DIMS - 1) 0)) =
      some ((1:ℚ) :: List.replicate (DENSE_DIMS - 1) 0) := by
  unfold ensureNonzeroVector
  dsimp only
  rw [if_neg, if_pos]
  · simp [List.map_replicate, List.sum_replicate]
  · have hl : (1 :: List.replicate (DENSE_DIMS - 1) (0:ℚ)).length = DENSE_DIMS := by
      simp only [List.length_cons, List.length_replicate]
      rfl
    exact not_or.mpr ⟨by simp, by simp [hl]⟩

/-- Witness for C9 at the concrete candidate. -/
theorem bulk_index_skips_incomplete_witness :
    ((candidateDoc exampleCandidate).location).isSome ∧
    ((candidateDoc exampleCandidate).aggregated_title_embedding).isSome :=
  (bulk_index_skips_incomplete [exampleCandidate]).1
    (toString exampleCandidate.post_id, candidateDoc exampleCandidate)
    (by
      rw [(bulk_index_skips_incomplete [exampleCandidate]).2]
      simp [List.filter_cons, candidateDoc, exampleCandidate, ensureNonzeroVector_unit])

/-- The six tiers in scan order (most senior first), as scanned by
_match_seniority. -/
lemma seniority_scan_order :
    SENIORITY_LEVELS.reverse =
      ["executive", "director", "manager", "senior", "mid", "junior"] := rfl

/-- C4: _match_seniority scans tiers from most senior (executive) to least
senior (junior) and returns the first tier with a whole-word keyword match
— each conjunct fixes the result once all more-senior tiers fail and the
given tier matches; "mid" is returned when no tier matches, when the work
experience list is empty, or when the first title is empty; and a title
containing an executive keyword as a whole word is always classified
executive ("Junior CFO" included). -/
theorem seniority_inference_scan (t : String) :
    (tierMatches "executive" t = true → _match_seniority t = "executive") ∧
    (tierMatches "executive" t = false → tierMatches "director" t = true →
      _match_seniority t = "director") ∧
    (tierMatches "executive" t = false → tierMatches "director" t = false →
      tierMatches "manager" t = true → _match_seniority t = "manager") ∧
    (tierMatches "executive" t = false → tierMatches "director" t = false →
      tierMatches "manager" t = false → tierMatches "senior" t = true →
      _match_seniority t = "senior") ∧
    (tierMatches "executive" t = false → tierMatches "director" t = false →
      tierMatches "manager" t = false → tierMatches "senior" t = false →
      tierMatches "mid" t = true → _match_seniority t = "mid") ∧
    (tierMatches "executive" t = false → tierMatches "director" t = false →
      tierMatches "manager" t = false → tierMatches "senior" t = false →
      tierMatches "mid" t = false → tierMatches "junior" t = true →
      _match_seniority t = "junior") ∧
    ((∀ l ∈ SENIORITY_LEVELS, tierMatches l t = false) → _match_seniority t = "mid") ∧
    infer_seniority [] = "mid" ∧
    (∀ e es, e.raw_title = "" → infer_seniority (e :: es) = "mid") ∧
    infer_seniority [cfoExperience] = "executive" := by
  have hms : ∀ s : String, _match_seniority s =
      (List.find? (fun level => tierMatches level s)
        ["executive", "director", "manager", "senior", "mid", "junior"]).getD "mid" := by
    intro s
    unfold _match_seniority
    rw [seniority_scan_order]
  refine ⟨?_, ?_, ?_, ?_, ?_, ?_, ?_, rfl, ?_, ?_⟩
  · intro h1
    rw [hms, List.find?_cons_of_pos _ (by simp [h1])]
    rfl
  · intro h1 h2
    rw [hms, List.find?_cons_of_neg _ (by simp [h1]),
        List.find?_cons_of_pos _ (by simp [h2])]
    rfl
  · intro h1 h2 h3
    rw [hms, List.find?_cons_of_neg _ (by simp [h1]),
        List.find?_cons_of_neg _ (by simp [h2]),
        List.find?_cons_of_pos _ (by simp [h3])]
    rfl
  · intro h1 h2 h3 h4
    rw [hms, List.find?_cons_of_neg _ (by simp [h1]),
        List.find?_cons_of_neg _ (by simp [h2]),
        List.find?_cons_of_neg _ (by simp [h3]),
        List.find?_cons_of_pos _ (by simp [h4])]
    rfl
  · intro h1 h2 h3 h4 h5
    rw [hms, List.find?_cons_of_neg _ (by simp [h1]),
        List.find?_cons_of_neg _ (by simp [h2]),
        List.find?_cons_of_neg _ (by simp [h3]),
        List.find?_cons_of_neg _ (by simp [h4]),
        List.find?_cons_of_pos _ (by simp [h5])]
    rfl
  · intro h1 h2 h3 h4 h5 h6
    rw [hms, List.find?_cons_of_neg _ (by simp [h1]),
        List.find?_cons_of_neg _ (by simp [h2]),
        List.find?_cons_of_neg _ (by simp [h3]),
        List.find?_cons_of_neg _ (by simp [h4]),
        List.find?_cons_of_neg _ (by simp [h5]),
        List.find?_cons_of_pos _ (by simp [h6])]
    rfl
  · intro hall
    have h1 := hall "executive" (by simp [SENIORITY_LEVELS])
    have h2 := hall "director" (by simp [SENIORITY_LEVELS])
    have h3 := hall "manager" (by simp [SENIORITY_LEVELS])
    have h4 := hall "senior" (by simp [SENIORITY_LEVELS])
    have h5 := hall "mid" (by simp [SENIORITY_LEVELS])
    have h6 := hall "junior" (by simp [SENIORITY_LEVELS])
    rw [hms, List.find?_cons_of_neg _ (by simp [h1]),
        List.find?_cons_of_neg _ (by simp [h2]),
        List.find?_cons_of_neg _ (by simp [h3]),
        List.find?_cons_of_neg _ (by simp [h4]),
        List.find?_cons_of_neg _ (by simp [h5]),
        List.find?_cons_of_neg _ (by simp [h6])]
    rfl
  · intro e es he
    unfold infer_seniority
    dsimp only
    rw [he]
    rfl
  · decide

/-- Witness for C4: discharge the executive-keyword hypothesis at the
concrete lowercased title "junior cfo". -/
theorem seniority_inference_scan_witness :
    _match_seniority "junior cfo" = "executive" :=
  (seniority_inference_scan "junior cfo").1 (by decide)

lemma zipWith_replicate_zero_acc (w : ℚ) (v : List ℚ) (n : ℕ) (h : v.length = n) :
    (List.replicate n (0:ℚ)).zipWith (fun o vi => o + vi * w) v =
      v.map (fun vi => vi * w) := by
  induction v generalizing n with
  | nil =>
    subst h
    rfl
  | cons a as ih =>
    subst h
    simp only [List.length_cons, List.replicate_succ, List.zipWith_cons_cons,
      List.map_cons, zero_add]
    rw [ih as.length rfl]

/-- C6: weighted_mean_embedding returns absent exactly when the item list
is empty or the sum of the weights clamped to ≥ 0 is ≤ 0; and for two
items with the same positive weight the result is the component-wise
arithmetic mean of the two embedding vectors. -/
theorem weighted_mean_embedding_spec (embed : String → List ℚ) :
    (∀ items : List (String × ℚ),
      weighted_mean_embedding embed items = none ↔
        items = [] ∨ (items.map (fun x => max 0 x.2)).sum ≤ 0) ∧
    (∀ (t1 t2 : String) (w : ℚ), 0 < w →
      (embed t1).length = DIMS → (embed t2).length = DIMS →
      weighted_mean_embedding embed [(t1, w), (t2, w)] =
        some ((embed t1).zipWith (fun a b => (a + b) / 2) (embed t2))) := by
  constructor
  · intro items
    unfold weighted_mean_embedding
    by_cases hempty : items = []
    · simp [hempty]
    · rw [if_neg hempty]
      by_cases hsum : (items.map (fun x => max 0 x.2)).sum ≤ 0
      · simp [hsum, hempty]
      · simp [hsum, hempty]
  · intro t1 t2 w hw h1 h2
    have hmax : max (0:ℚ) w = w := max_eq_right (le_of_lt hw)
    unfold weighted_mean_embedding
    rw [if_neg (show ¬ ([(t1, w), (t2, w)] : List (String × ℚ)) = [] by simp)]
    simp only [List.map_cons, List.map_nil, List.sum_cons, List.sum_nil, hmax, add_zero,
      List.zip_cons_cons, List.zip_nil_right, List.foldl_cons, List.foldl_nil]
    rw [if_neg (show ¬ (w + w ≤ 0) by push_neg; linarith)]
    rw [zipWith_replicate_zero_acc w (embed t1) DIMS h1]
    rw [List.zipWith_map_left, List.map_zipWith]
    have hfun : (fun x y : ℚ => (x * w + y * w) / (w + w)) = (fun a b : ℚ => (a + b) / 2) := by
      funext a b
      have hw0 : w ≠ 0 := ne_of_gt hw
      field_simp
      ring
    rw [hfun]

/-- Witness for C6: two equal-weight items on a constant embedding. -/
theorem weighted_mean_embedding_spec_witness :
    weighted_mean_embedding (fun _ => List.replicate DIMS (169/100))
        [("alpha", 1), ("beta", 1)] =
      some ((List.replicate DIMS ((169:ℚ)/100)).zipWith (fun a b => (a + b) / 2)
        (List.replicate DIMS (169/100))) :=
  (weighted_mean_embedding_spec (fun _ => List.replicate DIMS (169/100))).2
    "alpha" "beta" 1 (by norm_num) (by simp) (by simp)

lemma acceptable_degrees_ne_nil (lvl : String) : _acceptable_degrees lvl ≠ [] := by
  unfold _acceptable_degrees
  split_ifs <;> simp

/-- C1: the hard-filter context admits a candidate only if the candidate's
desired workload is ≥ the job's minimum and the candidate's minimum
acceptable workload is ≤ the job's maximum (two independent inequalities);
when a nonempty required-available-before date is given, the candidate has
no availability date or one on or before it; and every required language
with a nonempty name is spoken at a degree in the accepted set, where the
accepted set is Mother tongue/Fluent for uppercased minimum levels C1, C2
and NATIVE (with or without the trailing space the source lists) and
additionally Intermediate for every other minimum level. -/
theorem hard_filters_admit_only_if
    (withinKm : ℚ → ℚ → ℤ → ℚ × ℚ → Bool)
    (lat lon : ℚ) (radius pmin pmax : ℤ)
    (reqs : List LangRequirement) (avail : Option String) (c : CandidateDoc)
    (h : candidateAdmitted withinKm c
      (build_hard_filters lat lon radius pmin pmax reqs avail) = true) :
    (pmin ≤ c.pensum_desired ∧ c.pensum_from ≤ pmax) ∧
    (∀ d, avail = some d → d ≠ "" →
      c.available_from = none ∨
        ∃ a, c.available_from = some a ∧ lexLeChars a.data d.data = true) ∧
    (∀ r ∈ reqs, langReqName r ≠ "" →
      ∃ l ∈ c.languages, l.lang = langReqName r ∧
        l.degree ∈ _acceptable_degrees (langReqMinLevel r)) ∧
    (∀ lvl, (lvl = "C1" ∨ lvl = "C2" ∨ lvl = "NATIVE" ∨ lvl = "NATIVE ") →
      _acceptable_degrees lvl = ["Mother tongue", "Fluent"]) ∧
    (∀ lvl, ¬(lvl = "C1" ∨ lvl = "C2" ∨ lvl = "NATIVE" ∨ lvl = "NATIVE ") →
      _acceptable_degrees lvl = ["Mother tongue", "Fluent", "Intermediate"]) := by
  have hall : ∀ f ∈ build_hard_filters lat lon radius pmin pmax reqs avail,
      evalFilter withinKm c f = true :=
    fun f hf => List.all_eq_true.1 h f hf
  refine ⟨⟨?_, ?_⟩, ?_, ?_, ?_, ?_⟩
  · have hmem : ESFilter.rangeGte "pensum_desired" pmin ∈
        build_hard_filters lat lon radius pmin pmax reqs avail := by
      unfold build_hard_filters
      simp
    have h1 := hall _ hmem
    simpa [evalFilter] using h1
  · have hmem : ESFilter.rangeLte "pensum_from" pmax ∈
        build_hard_filters lat lon radius pmin pmax reqs avail := by
      unfold build_hard_filters
      simp
    have h1 := hall _ hmem
    simpa [evalFilter] using h1
  · intro d hd hne
    subst hd
    have hmem : ESFilter.boolShould2 (ESFilter.mustNotExists "available_from")
        (ESFilter.rangeLteDate "available_from" d) ∈
        build_hard_filters lat lon radius pmin pmax reqs (some d) := by
      unfold build_hard_filters
      simp [hne]
    have h1 := hall _ hmem
    simp only [evalFilter, Bool.or_eq_true] at h1
    cases hav : c.available_from with
    | none => exact Or.inl rfl
    | some a =>
      rw [hav] at h1
      rcases h1 with h1 | h1
      · simp at h1
      · exact Or.inr ⟨a, rfl, by simpa using h1⟩
  · intro r hr hname
    have hmem : ESFilter.nestedLanguages (langReqName r)
        (_acceptable_degrees (langReqMinLevel r)) ∈
        build_hard_filters lat lon radius pmin pmax reqs avail := by
      unfold build_hard_filters
      refine List.mem_append.2 (Or.inr ?_)
      refine List.mem_filterMap.2 ⟨r, hr, ?_⟩
      dsimp only
      rw [if_pos ⟨hname, acceptable_degrees_ne_nil _⟩]
    have h1 := hall _ hmem
    simp only [evalFilter, List.any_eq_true, Bool.and_eq_true, beq_iff_eq] at h1
    rcases h1 with ⟨l, hl, hlang, hdeg⟩
    exact ⟨l, hl, hlang, List.elem_iff.1 hdeg⟩
  · intro lvl hl
    unfold _acceptable_degrees
    rw [if_pos hl]
  · intro lvl hl
    unfold _acceptable_degrees
    rw [if_neg hl]

/-- Witness for C1: the admission hypothesis discharged by evaluation at
the concrete candidate and filter parameters. -/
theorem hard_filters_admit_only_if_witness :
    (50 : ℤ) ≤ filterDemoDoc.pensum_desired ∧ filterDemoDoc.pensum_from ≤ 100 :=
  (hard_filters_admit_only_if (fun _ _ _ _ => true) (47/10) (85/10) 50 50 100
    [filterDemoReq] (some "2026-06-30") filterDemoDoc (by decide)).1

lemma pyStripList_eq_rdrop (l : List Char) :
    pyStripList l = List.rdropWhile Char.isWhitespace (l.dropWhile Char.isWhitespace) := rfl

lemma pyStripList_idem (l : List Char) :
    pyStripList (pyStripList l) = pyStripList l := by
  rw [pyStripList_eq_rdrop, pyStripList_eq_rdrop]
  have h1 : (List.rdropWhile Char.isWhitespace
        (l.dropWhile Char.isWhitespace)).dropWhile Char.isWhitespace =
      List.rdropWhile Char.isWhitespace (l.dropWhile Char.isWhitespace) := by
    cases hB : List.rdropWhile Char.isWhitespace (l.dropWhile Char.isWhitespace) with
    | nil => rfl
    | cons b bs =>
      obtain ⟨t, ht⟩ :=
        List.rdropWhile_prefix Char.isWhitespace (l.dropWhile Char.isWhitespace)
      rw [hB] at ht
      have hA : l.dropWhile Char.isWhitespace = b :: (bs ++ t) := by
        rw [← ht]
        simp
      have h0 : 0 < (l.dropWhile Char.isWhitespace).length := by
        rw [hA]
        simp
      have hz := List.dropWhile_get_zero_not Char.isWhitespace l h0
      have hgb : (l.dropWhile Char.isWhitespace).get ⟨0, h0⟩ = b := by
        rw [List.get_of_eq hA]
        rfl
      rw [hgb] at hz
      exact List.dropWhile_cons_of_neg hz
  rw [h1, List.rdropWhile_idempotent]

lemma pyStrip_idem (s : String) : pyStrip (pyStrip s) = pyStrip s :=
  congrArg String.mk (pyStripList_idem s.data)

lemma normStd_stripped (x : String) : pyStrip (normStd x) = normStd x := by
  unfold normStd
  exact pyStrip_idem _

lemma lookup_append (k : String) (l₁ l₂ : List (String × String)) :
    (l₁ ++ l₂).lookup k =
      match l₁.lookup k with
      | some v => some v
      | none => l₂.lookup k := by
  induction l₁ with
  | nil => rfl
  | cons a l ih =>
    rcases a with ⟨k', v'⟩
    simp only [List.cons_append, List.lookup]
    cases h : k == k'
    · simp [ih]
    · simp

lemma lookup_isSome_iff (k : String) (l : List (String × String)) :
    (l.lookup k).isSome ↔ k ∈ l.map Prod.fst := by
  induction l with
  | nil => simp [List.lookup]
  | cons a l ih =>
    rcases a with ⟨k', v'⟩
    simp only [List.lookup, List.map_cons, List.mem_cons]
    cases h : k == k'
    · have hne : k ≠ k' := by simpa using h
      simp [hne, ih]
    · have heq : k = k' := by simpa using h
      simp [heq]

lemma lookup_eq_none_of_not_mem {k : String} {l : List (String × String)}
    (h : k ∉ l.map Prod.fst) : l.lookup k = none := by
  cases hl : l.lookup k with
  | none => rfl
  | some v =>
    exact absurd ((lookup_isSome_iff k l).1 (by simp [hl])) h

lemma lookup_some_exists {k v : String} {l : List (String × String)}
    (h : l.lookup k = some v) : ∃ rs ∈ l, rs.1 = k ∧ rs.2 = v := by
  induction l with
  | nil => simp [List.lookup] at h
  | cons a l ih =>
    rcases a with ⟨k', v'⟩
    simp only [List.lookup] at h
    cases hb : k == k'
    · rw [hb] at h
      obtain ⟨rs, hrs, h1, h2⟩ := ih h
      exact ⟨rs, by simp [hrs], h1, h2⟩
    · rw [hb] at h
      have heq : k = k' := by simpa using hb
      exact ⟨(k', v'), by simp, heq.symm, by simpa using h⟩

lemma lookup_const_values {l : List (String × String)} {k c : String}
    (hmem : k ∈ l.map Prod.fst) (hval : ∀ rs ∈ l, rs.2 = c) :
    l.lookup k = some c := by
  induction l with
  | nil => simp at hmem
  | cons a l ih =>
    rcases a with ⟨k', v'⟩
    simp only [List.lookup]
    cases hb : k == k'
    · have hne : k ≠ k' := by simpa using hb
      have hmem' : k ∈ l.map Prod.fst := by
        simpa [hne] using hmem
      exact ih hmem' (fun rs hrs => hval rs (by simp [hrs]))
    · have : v' = c := hval (k', v') (by simp)
      simp [this]

lemma lookup_stripped_pair (m : List (String × String)) (k : String)
    (H1 : ∀ rs ∈ m, pyStrip rs.1 = rs.1) :
    (m.map (fun rs => (pyStrip rs.1, pyStrip (normStd rs.2)))).lookup k =
      ((m.map (fun rs => (rs.1, normStd rs.2))).lookup k).map pyStrip := by
  induction m with
  | nil => rfl
  | cons rs m ih =>
    simp only [List.map_cons, List.lookup, H1 rs (by simp)]
    cases hb : k == rs.1
    · exact ih (fun x hx => H1 x (by simp [hx]))
    · rfl

lemma scanTitles_fst_not_mem {cache : List (String × String)} {titles : List String}
    {k : String} (h : k ∉ titles.map pyStrip) :
    ((scanTitles cache titles).1).lookup k = none := by
  induction titles with
  | nil => rfl
  | cons t ts ih =>
    have hne : k ≠ pyStrip t := by
      intro he
      exact h (by simp [he])
    have hmem : k ∉ ts.map pyStrip := by
      intro hm
      exact h (by simp [hm])
    simp only [scanTitles]
    by_cases hemp : pyStrip t = ""
    · rw [if_pos hemp]
      exact ih hmem
    · rw [if_neg hemp]
      cases hc : get_cached_mapping (pyStrip t) cache with
      | none => exact ih hmem
      | some v =>
        simp only [List.lookup]
        rw [show (k == pyStrip t) = false by simpa using hne]
        exact ih hmem

lemma scanTitles_fst_lookup_empty (cache : List (String × String))
    (titles : List String) :
    ((scanTitles cache titles).1).lookup "" = none := by
  induction titles with
  | nil => rfl
  | cons t ts ih =>
    simp only [scanTitles]
    by_cases hemp : pyStrip t = ""
    · rw [if_pos hemp]
      exact ih
    · rw [if_neg hemp]
      cases hc : get_cached_mapping (pyStrip t) cache with
      | none => exact ih
      | some v =>
        simp only [List.lookup]
        rw [show (("" : String) == pyStrip t) = false by
          simpa using fun he => hemp he.symm]
        exact ih

lemma scanTitles_fst_cache_miss {cache : List (String × String)}
    {titles : List String} {k : String}
    (h : cache.lookup (pyStrip k) = none) :
    ((scanTitles cache titles).1).lookup k = none := by
  induction titles with
  | nil => rfl
  | cons t ts ih =>
    simp only [scanTitles]
    by_cases hemp : pyStrip t = ""
    · rw [if_pos hemp]
      exact ih
    · rw [if_neg hemp]
      cases hc : get_cached_mapping (pyStrip t) cache with
      | none => exact ih
      | some v =>
        simp only [List.lookup]
        have hne : (k == pyStrip t) = false := by
          refine beq_eq_false_iff_ne.2 ?_
          intro he
          rw [he] at h
          unfold get_cached_mapping at hc
          rw [h] at hc
          exact Option.noConfusion hc
        rw [hne]
        exact ih

lemma scanTitles_fst_cache_hit {cache : List (String × String)}
    {titles : List String} {k : String}
    (hk : k ≠ "") (hmem : k ∈ titles.map pyStrip)
    (hsome : (cache.lookup (pyStrip k)).isSome) :
    ((scanTitles cache titles).1).lookup k = cache.lookup (pyStrip k) := by
  induction titles with
  | nil => simp at hmem
  | cons t ts ih =>
    simp only [scanTitles]
    by_cases hemp : pyStrip t = ""
    · rw [if_pos hemp]
      have hmem' : k ∈ ts.map pyStrip := by
        rw [List.map_cons] at hmem
        rcases List.mem_cons.1 hmem with he | hm
        · exact absurd (he.trans hemp) hk
        · exact hm
      exact ih hmem'
    · rw [if_neg hemp]
      by_cases hkt : k = pyStrip t
      · subst hkt
        cases hc : get_cached_mapping (pyStrip t) cache with
        | none =>
          unfold get_cached_mapping at hc
          rw [hc] at hsome
          simp at hsome
        | some v =>
          simp only [List.lookup, beq_self_eq_true]
          unfold get_cached_mapping at hc
          rw [hc]
      · have hmem' : k ∈ ts.map pyStrip := by
          rw [List.map_cons] at hmem
          rcases List.mem_cons.1 hmem with he | hm
          · exact absurd he hkt
          · exact hm
        cases hc : get_cached_mapping (pyStrip t) cache with
        | none => exact ih hmem'
        | some v =>
          simp only [List.lookup]
          rw [show (k == pyStrip t) = false by simpa using hkt]
          exact ih hmem'

lemma scanTitles_snd_eq (cache : List (String × String)) (titles : List String) :
    (scanTitles cache titles).2 = titles.filterMap (fun t =>
      if pyStrip t = "" ∨ (cache.lookup (pyStrip (pyStrip t))).isSome then none
      else some (pyStrip t)) := by
  induction titles with
  | nil => rfl
  | cons t ts ih =>
    simp only [scanTitles, List.filterMap_cons]
    by_cases hemp : pyStrip t = ""
    · rw [if_pos hemp, if_pos (Or.inl hemp)]
      exact ih
    · rw [if_neg hemp]
      cases hc : get_cached_mapping (pyStrip t) cache with
      | none =>
        unfold get_cached_mapping at hc
        rw [if_neg (by simp [hemp, hc])]
        simpa using ih
      | some v =>
        unfold get_cached_mapping at hc
        rw [if_pos (Or.inr (by simp [hc]))]
        exact ih

lemma mem_scanTitles_snd {cache : List (String × String)} {titles : List String}
    {x : String} (h : x ∈ (scanTitles cache titles).2) :
    (∃ t ∈ titles, x = pyStrip t) ∧ x ≠ "" ∧
      cache.lookup (pyStrip x) = none := by
  rw [scanTitles_snd_eq] at h
  obtain ⟨t, ht, hx⟩ := List.mem_filterMap.1 h
  by_cases hcond : pyStrip t = "" ∨ (cache.lookup (pyStrip (pyStrip t))).isSome
  · rw [if_pos hcond] at hx
    exact Option.noConfusion hx
  · rw [if_neg hcond] at hx
    push_neg at hcond
    have hx' : x = pyStrip t := by
      exact (Option.some.injEq _ _ ▸ hx).symm
    subst hx'
    exact ⟨⟨t, ht, rfl⟩, hcond.1,
      Option.not_isSome_iff_eq_none.1 hcond.2⟩

lemma scanTitles_snd_mem {cache : List (String × String)} {titles : List String}
    {t : String} (ht : t ∈ titles) (hne : pyStrip t ≠ "")
    (hmiss : cache.lookup (pyStrip (pyStrip t)) = none) :
    pyStrip t ∈ (scanTitles cache titles).2 := by
  rw [scanTitles_snd_eq]
  exact List.mem_filterMap.2 ⟨t, ht, by rw [if_neg (by simp [hne, hmiss])]⟩

lemma chunkBatches_join_aux :
    ∀ (n : ℕ) (l : List String), l.length ≤ n → (chunkBatches l).flatten = l := by
  intro n
  induction n with
  | zero =>
    intro l h
    cases l with
    | nil => rw [chunkBatches]; rfl
    | cons t ts => simp at h
  | succ n ih =>
    intro l h
    cases l with
    | nil => rw [chunkBatches]; rfl
    | cons t ts =>
      rw [chunkBatches]
      rw [List.flatten_cons]
      rw [ih ((t :: ts).drop BATCH_SIZE) (by
        simp only [List.length_drop, List.length_cons, BATCH_SIZE]
        simp only [List.length_cons] at h
        omega)]
      exact List.take_append_drop _ _

lemma chunkBatches_join (l : List String) : (chunkBatches l).flatten = l :=
  chunkBatches_join_aux l.length l le_rfl

lemma applyMapping_eq (m res cache : List (String × String)) :
    applyMapping m res cache =
      (m.reverse.map (fun rs => (rs.1, normStd rs.2)) ++ res,
       m.reverse.map (fun rs => (pyStrip rs.1, pyStrip (normStd rs.2))) ++ cache) := by
  induction m generalizing res cache with
  | nil => rfl
  | cons rs m ih =>
    have hstep : applyMapping (rs :: m) res cache =
        applyMapping m ((rs.1, normStd rs.2) :: res)
          ((pyStrip rs.1, pyStrip (normStd rs.2)) :: cache) := rfl
    rw [hstep, ih]
    simp [List.reverse_cons, List.map_append, List.append_assoc]

lemma processBatches_eq (api : List String → Except Unit (List (String × String)))
    (batches : List (List String)) (res cache : List (String × String)) :
    processBatches api batches res cache =
      ((allMappingEntries api batches).map (fun rs => (rs.1, normStd rs.2)) ++ res,
       (allMappingEntries api batches).map
         (fun rs => (pyStrip rs.1, pyStrip (normStd rs.2))) ++ cache,
       batches.length) := by
  induction batches generalizing res cache with
  | nil => simp [processBatches, allMappingEntries]
  | cons b bs ih =>
    show (let rc := applyMapping (batchMapping api b) res cache
          let rest := processBatches api bs rc.1 rc.2
          (rest.1, rest.2.1, rest.2.2 + 1)) = _
    rw [applyMapping_eq]
    dsimp only
    rw [ih]
    simp only [allMappingEntries, List.map_cons, List.reverse_cons, List.flatten_append,
      List.map_append, List.append_assoc, List.flatten_cons, List.flatten_nil,
      List.append_nil, List.length_cons]

lemma batchMapping_keys {api : List String → Except Unit (List (String × String))}
    (H : ∀ b m, api b = Except.ok m → m.map Prod.fst = b) (b : List String) :
    (batchMapping api b).map Prod.fst = b := by
  unfold batchMapping
  cases hab : api b with
  | ok m => exact H b m hab
  | error e =>
    show List.map Prod.fst (b.map (fun t => (t, "NONE"))) = b
    rw [List.map_map]
    exact List.map_id'' (congrFun rfl) b

lemma mem_allMappingEntries {api : List String → Except Unit (List (String × String))}
    {batches : List (List String)} {rs : String × String}
    (h : rs ∈ allMappingEntries api batches) :
    ∃ b ∈ batches, rs ∈ batchMapping api b := by
  unfold allMappingEntries at h
  obtain ⟨sub, hsub, hrs⟩ := List.mem_flatten.1 h
  rw [List.mem_reverse] at hsub
  obtain ⟨b, hb, hbe⟩ := List.mem_map.1 hsub
  exact ⟨b, hb, by
    rw [← hbe] at hrs
    exact List.mem_reverse.1 hrs⟩

lemma key_mem_allMappingEntries
    {api : List String → Except Unit (List (String × String))}
    (H : ∀ b m, api b = Except.ok m → m.map Prod.fst = b)
    {batches : List (List String)} {k : String} {b : List String}
    (hb : b ∈ batches) (hk : k ∈ b) :
    k ∈ (allMappingEntries api batches).map Prod.fst := by
  rw [← batchMapping_keys H b] at hk
  obtain ⟨rs, hrs, hfst⟩ := List.mem_map.1 hk
  refine List.mem_map.2 ⟨rs, ?_, hfst⟩
  unfold allMappingEntries
  exact List.mem_flatten.2 ⟨(batchMapping api b).reverse,
    List.mem_reverse.2 (List.mem_map.2 ⟨b, hb, rfl⟩),
    List.mem_reverse.2 hrs⟩

lemma allMappingEntries_key_mem_join
    {api : List String → Except Unit (List (String × String))}
    (H : ∀ b m, api b = Except.ok m → m.map Prod.fst = b)
    {batches : List (List String)} {rs : String × String}
    (h : rs ∈ allMappingEntries api batches) :
    rs.1 ∈ batches.flatten := by
  obtain ⟨b, hb, hrs⟩ := mem_allMappingEntries h
  refine List.mem_flatten.2 ⟨b, hb, ?_⟩
  rw [← batchMapping_keys H b]
  exact List.mem_map.2 ⟨rs, hrs, rfl⟩

lemma map_fst_res_pairs (m : List (String × String)) :
    (m.map (fun rs => (rs.1, normStd rs.2))).map Prod.fst = m.map Prod.fst := by
  rw [List.map_map]
  rfl

lemma map_fst_cache_pairs (m : List (String × String)) :
    (m.map (fun rs => (pyStrip rs.1, pyStrip (normStd rs.2)))).map Prod.fst =
      m.map (fun rs => pyStrip rs.1) := by
  rw [List.map_map]
  rfl

/-- Failure degradation component: when every external call fails,
map_titles_batch still returns (the caught exception never propagates),
every uncached title with a nonempty trimmed form is mapped to "NONE" in
the returned dict, and that "NONE" is written to the cache keyed by the
trimmed raw title. -/
lemma map_titles_batch_failure_none (titles : List String)
    (cache : List (String × String)) (t : String) (ht : t ∈ titles)
    (hne : pyStrip t ≠ "")
    (hmiss : cache.lookup (pyStrip (pyStrip t)) = none) :
    ((map_titles_batch (fun _ => Except.error ()) titles cache).1.lookup
        (pyStrip t) = some "NONE") ∧
    ((map_titles_batch (fun _ => Except.error ()) titles cache).2.1.lookup
        (pyStrip (pyStrip t)) = some "NONE") := by
  have H : ∀ b m, (fun _ : List String => (Except.error () :
      Except Unit (List (String × String)))) b = Except.ok m →
      m.map Prod.fst = b := by
    intro b m h
    exact Except.noConfusion h
  have hk : pyStrip t ∈ (scanTitles cache titles).2 :=
    scanTitles_snd_mem ht hne hmiss
  have hnonempty : (scanTitles cache titles).2 ≠ [] := by
    intro he
    rw [he] at hk
    simp at hk
  unfold map_titles_batch
  rw [if_neg hnonempty, processBatches_eq]
  have hmemflat : pyStrip t ∈ (chunkBatches (scanTitles cache titles).2).flatten := by
    rw [chunkBatches_join]
    exact hk
  obtain ⟨b, hb, hkb⟩ := List.mem_flatten.1 hmemflat
  have hkeys : pyStrip t ∈ (allMappingEntries (fun _ => Except.error ())
      (chunkBatches (scanTitles cache titles).2)).map Prod.fst :=
    key_mem_allMappingEntries H hb hkb
  have hvals : ∀ rs ∈ allMappingEntries (fun _ => Except.error ())
      (chunkBatches (scanTitles cache titles).2), rs.2 = "NONE" := by
    intro rs hrs
    obtain ⟨b', _, hrs'⟩ := mem_allMappingEntries hrs
    unfold batchMapping at hrs'
    obtain ⟨x, _, hx⟩ := List.mem_map.1 hrs'
    rw [← hx]
  constructor
  · rw [lookup_append]
    have : ((allMappingEntries (fun _ => Except.error ())
        (chunkBatches (scanTitles cache titles).2)).map
          (fun rs => (rs.1, normStd rs.2))).lookup (pyStrip t) = some "NONE" := by
      refine lookup_const_values ?_ ?_
      · rw [map_fst_res_pairs]
        exact hkeys
      · intro rs hrs
        obtain ⟨rs0, hrs0, heq⟩ := List.mem_map.1 hrs
        rw [← heq]
        show normStd rs0.2 = "NONE"
        rw [hvals rs0 hrs0]
        rfl
    rw [this]
  · rw [lookup_append]
    have : ((allMappingEntries (fun _ => Except.error ())
        (chunkBatches (scanTitles cache titles).2)).map
          (fun rs => (pyStrip rs.1, pyStrip (normStd rs.2)))).lookup
        (pyStrip (pyStrip t)) = some "NONE" := by
      refine lookup_const_values ?_ ?_
      · rw [map_fst_cache_pairs]
        obtain ⟨rs0, hrs0, heq⟩ := List.mem_map.1 hkeys
        exact List.mem_map.2 ⟨rs0, hrs0, by rw [heq]⟩
      · intro rs hrs
        obtain ⟨rs0, hrs0, heq⟩ := List.mem_map.1 hrs
        rw [← heq]
        show pyStrip (normStd rs0.2) = "NONE"
        rw [hvals rs0 hrs0]
        rfl
    rw [this]

/-- Idempotence component: assuming the external call honours its contract
of using the exact raw title strings as keys (H), a second map_titles_batch
call with the same raw titles issues no external call, leaves the cache
unchanged, and returns the same raw-to-standard mapping as the first call;
moreover after the first call every title with a nonempty trimmed form has
a cache entry under its trimmed key. -/
lemma map_titles_batch_idempotent
    (api : List String → Except Unit (List (String × String)))
    (H : ∀ b m, api b = Except.ok m → m.map Prod.fst = b)
    (titles : List String) (cache : List (String × String)) :
    (map_titles_batch api titles (map_titles_batch api titles cache).2.1).2.2 = 0 ∧
    (map_titles_batch api titles (map_titles_batch api titles cache).2.1).2.1 =
      (map_titles_batch api titles cache).2.1 ∧
    (∀ k, (map_titles_batch api titles
        (map_titles_batch api titles cache).2.1).1.lookup k =
      (map_titles_batch api titles cache).1.lookup k) ∧
    (∀ t ∈ titles, pyStrip t ≠ "" →
      (((map_titles_batch api titles cache).2.1).lookup
        (pyStrip (pyStrip t))).isSome) := by
  by_cases hempty : (scanTitles cache titles).2 = []
  · have hr1 : map_titles_batch api titles cache =
        ((scanTitles cache titles).1, cache, 0) := by
      unfold map_titles_batch
      rw [if_pos hempty]
    simp only [hr1]
    refine ⟨trivial, trivial, fun k => trivial, ?_⟩
    intro t ht hne
    cases hc : cache.lookup (pyStrip (pyStrip t)) with
    | none =>
      have := scanTitles_snd_mem ht hne hc
      rw [hempty] at this
      simp at this
    | some v => rfl
  · have hr1 : map_titles_batch api titles cache =
        ((allMappingEntries api (chunkBatches (scanTitles cache titles).2)).map
            (fun rs => (rs.1, normStd rs.2)) ++ (scanTitles cache titles).1,
         (allMappingEntries api (chunkBatches (scanTitles cache titles).2)).map
            (fun rs => (pyStrip rs.1, pyStrip (normStd rs.2))) ++ cache,
         (chunkBatches (scanTitles cache titles).2).length) := by
      unfold map_titles_batch
      rw [if_neg hempty, processBatches_eq]
    have hA_key_toMap : ∀ rs ∈ allMappingEntries api
        (chunkBatches (scanTitles cache titles).2),
        rs.1 ∈ (scanTitles cache titles).2 := by
      intro rs hrs
      have h1 := allMappingEntries_key_mem_join H hrs
      rwa [chunkBatches_join] at h1
    have htoMap_stripped : ∀ x ∈ (scanTitles cache titles).2, pyStrip x = x := by
      intro x hx
      obtain ⟨⟨t0, _, hx0⟩, _, _⟩ := mem_scanTitles_snd hx
      rw [hx0, pyStrip_idem]
    have hA_fst_stripped : ∀ rs ∈ allMappingEntries api
        (chunkBatches (scanTitles cache titles).2), pyStrip rs.1 = rs.1 :=
      fun rs hrs => htoMap_stripped _ (hA_key_toMap rs hrs)
    have hkey_toMap_mem_A : ∀ x ∈ (scanTitles cache titles).2,
        x ∈ (allMappingEntries api
          (chunkBatches (scanTitles cache titles).2)).map Prod.fst := by
      intro x hx
      have hx' : x ∈ (chunkBatches (scanTitles cache titles).2).flatten := by
        rw [chunkBatches_join]
        exact hx
      obtain ⟨b, hb, hxb⟩ := List.mem_flatten.1 hx'
      exact key_mem_allMappingEntries H hb hxb
    have hnewCache_none : ∀ key v1, cache.lookup key = some v1 →
        ((allMappingEntries api (chunkBatches (scanTitles cache titles).2)).map
          (fun rs => (pyStrip rs.1, pyStrip (normStd rs.2)))).lookup key = none := by
      intro key v1 hv
      cases hl : ((allMappingEntries api
          (chunkBatches (scanTitles cache titles).2)).map
          (fun rs => (pyStrip rs.1, pyStrip (normStd rs.2)))).lookup key with
      | none => rfl
      | some w =>
        obtain ⟨rs', hrs', h1, _⟩ := lookup_some_exists hl
        obtain ⟨rs, hrs, heq⟩ := List.mem_map.1 hrs'
        have hk1 : key = rs.1 := by
          rw [← h1, ← heq]
          exact hA_fst_stripped rs hrs
        have hnone := (mem_scanTitles_snd (hA_key_toMap rs hrs)).2.2
        rw [hA_fst_stripped rs hrs] at hnone
        rw [hk1, hnone] at hv
        exact Option.noConfusion hv
    have hcache1_pres : ∀ key v1, cache.lookup key = some v1 →
        (((allMappingEntries api (chunkBatches (scanTitles cache titles).2)).map
          (fun rs => (pyStrip rs.1, pyStrip (normStd rs.2))) ++ cache)).lookup key =
          some v1 := by
      intro key v1 hv
      rw [lookup_append, hnewCache_none key v1 hv]
      exact hv
    have hcov : ∀ x ∈ (scanTitles cache titles).2,
        ((((allMappingEntries api (chunkBatches (scanTitles cache titles).2)).map
          (fun rs => (pyStrip rs.1, pyStrip (normStd rs.2))) ++ cache)).lookup
            (pyStrip x)).isSome := by
      intro x hx
      rw [htoMap_stripped x hx, lookup_append]
      have hxk : x ∈ ((allMappingEntries api
          (chunkBatches (scanTitles cache titles).2)).map
          (fun rs => (pyStrip rs.1, pyStrip (normStd rs.2)))).map Prod.fst := by
        rw [map_fst_cache_pairs]
        obtain ⟨rs, hrs, hfst⟩ := List.mem_map.1 (hkey_toMap_mem_A x hx)
        exact List.mem_map.2 ⟨rs, hrs, by rw [hA_fst_stripped rs hrs, hfst]⟩
      obtain ⟨w, hw⟩ := Option.isSome_iff_exists.1 ((lookup_isSome_iff _ _).2 hxk)
      rw [hw]
      rfl
    have hscan2 : (scanTitles (((allMappingEntries api
        (chunkBatches (scanTitles cache titles).2)).map
        (fun rs => (pyStrip rs.1, pyStrip (normStd rs.2))) ++ cache)) titles).2 = [] := by
      rw [scanTitles_snd_eq]
      rw [List.filterMap_eq_nil_iff]
      intro t0 ht0
      by_cases hemp : pyStrip t0 = ""
      · rw [if_pos (Or.inl hemp)]
      · cases hc : cache.lookup (pyStrip (pyStrip t0)) with
        | some v =>
          rw [if_pos (Or.inr (by rw [hcache1_pres _ v hc]; rfl))]
        | none =>
          have hxm : pyStrip t0 ∈ (scanTitles cache titles).2 :=
            scanTitles_snd_mem ht0 hemp hc
          rw [if_pos (Or.inr (hcov _ hxm))]
    have hr2 : map_titles_batch api titles
        (((allMappingEntries api (chunkBatches (scanTitles cache titles).2)).map
          (fun rs => (pyStrip rs.1, pyStrip (normStd rs.2))) ++ cache)) =
        ((scanTitles (((allMappingEntries api
            (chunkBatches (scanTitles cache titles).2)).map
            (fun rs => (pyStrip rs.1, pyStrip (normStd rs.2))) ++ cache)) titles).1,
         ((allMappingEntries api (chunkBatches (scanTitles cache titles).2)).map
            (fun rs => (pyStrip rs.1, pyStrip (normStd rs.2))) ++ cache), 0) := by
      unfold map_titles_batch
      rw [if_pos hscan2]
    simp only [hr1]
    rw [hr2]
    refine ⟨rfl, rfl, ?_, ?_⟩
    · intro k
      by_cases hmemk : k ∈ titles.map pyStrip
      · by_cases hk0 : k = ""
        · subst hk0
          rw [scanTitles_fst_lookup_empty, lookup_append]
          have hnone : ((allMappingEntries api
              (chunkBatches (scanTitles cache titles).2)).map
              (fun rs => (rs.1, normStd rs.2))).lookup "" = none := by
            apply lookup_eq_none_of_not_mem
            rw [map_fst_res_pairs]
            intro hmm
            obtain ⟨rs, hrs, hfst⟩ := List.mem_map.1 hmm
            exact (mem_scanTitles_snd (hA_key_toMap rs hrs)).2.1 hfst
          rw [hnone, scanTitles_fst_lookup_empty]
        · by_cases hc0 : (cache.lookup (pyStrip k)).isSome
          · obtain ⟨v, hv⟩ := Option.isSome_iff_exists.1 hc0
            have hres2 := scanTitles_fst_cache_hit hk0 hmemk
              (by rw [hcache1_pres (pyStrip k) v hv]; rfl)
            rw [hres2, hcache1_pres (pyStrip k) v hv, lookup_append]
            have hnewnone : ((allMappingEntries api
                (chunkBatches (scanTitles cache titles).2)).map
                (fun rs => (rs.1, normStd rs.2))).lookup k = none := by
              apply lookup_eq_none_of_not_mem
              rw [map_fst_res_pairs]
              intro hmm
              obtain ⟨rs, hrs, hfst⟩ := List.mem_map.1 hmm
              have hmiss := (mem_scanTitles_snd (hA_key_toMap rs hrs)).2.2
              have hpk : pyStrip k = k := by
                rw [← hfst]
                exact hA_fst_stripped rs hrs
              rw [hA_fst_stripped rs hrs, hfst] at hmiss
              rw [hpk, hmiss] at hv
              exact Option.noConfusion hv
            rw [hnewnone]
            show some v = (scanTitles cache titles).1.lookup k
            rw [scanTitles_fst_cache_hit hk0 hmemk hc0, hv]
          · have hc0n : cache.lookup (pyStrip k) = none :=
              Option.not_isSome_iff_eq_none.1 hc0
            obtain ⟨t0, ht0, ht0k⟩ := List.mem_map.1 hmemk
            have hkt : k ∈ (scanTitles cache titles).2 := by
              rw [← ht0k]
              refine scanTitles_snd_mem ht0 ?_ ?_
              · rw [ht0k]
                exact hk0
              · rw [ht0k]
                exact hc0n
            have hpk : pyStrip k = k := htoMap_stripped k hkt
            have hkA : k ∈ ((allMappingEntries api
                (chunkBatches (scanTitles cache titles).2)).map
                (fun rs => (rs.1, normStd rs.2))).map Prod.fst := by
              rw [map_fst_res_pairs]
              exact hkey_toMap_mem_A k hkt
            obtain ⟨w, hw⟩ :=
              Option.isSome_iff_exists.1 ((lookup_isSome_iff _ _).2 hkA)
            have hwstr : pyStrip w = w := by
              obtain ⟨rs', hrs', _, h2⟩ := lookup_some_exists hw
              obtain ⟨rs, _, heq⟩ := List.mem_map.1 hrs'
              rw [← h2, ← heq]
              exact normStd_stripped rs.2
            have hstr_pair := lookup_stripped_pair
              (allMappingEntries api (chunkBatches (scanTitles cache titles).2))
              k hA_fst_stripped
            have hLHS : (scanTitles (((allMappingEntries api
                (chunkBatches (scanTitles cache titles).2)).map
                (fun rs => (pyStrip rs.1, pyStrip (normStd rs.2))) ++ cache))
                titles).1.lookup k = some w := by
              have hres2 := @scanTitles_fst_cache_hit
                  ((allMappingEntries api
                    (chunkBatches (scanTitles cache titles).2)).map
                    (fun rs => (pyStrip rs.1, pyStrip (normStd rs.2))) ++ cache)
                titles k hk0 hmemk (by rw [hpk, lookup_append, hstr_pair, hw]; rfl)
              rw [hres2, hpk, lookup_append, hstr_pair, hw]
              show some (pyStrip w) = some w
              rw [hwstr]
            have hRHS : (((allMappingEntries api
                (chunkBatches (scanTitles cache titles).2)).map
                (fun rs => (rs.1, normStd rs.2))) ++
                (scanTitles cache titles).1).lookup k = some w := by
              rw [lookup_append, hw]
            rw [hLHS, hRHS]
      · have h2 := @scanTitles_fst_not_mem
            ((allMappingEntries api (chunkBatches (scanTitles cache titles).2)).map
              (fun rs => (pyStrip rs.1, pyStrip (normStd rs.2))) ++ cache)
            titles k hmemk
        rw [h2, lookup_append]
        have hnone : ((allMappingEntries api
            (chunkBatches (scanTitles cache titles).2)).map
            (fun rs => (rs.1, normStd rs.2))).lookup k = none := by
          apply lookup_eq_none_of_not_mem
          rw [map_fst_res_pairs]
          intro hmm
          obtain ⟨rs, hrs, hfst⟩ := List.mem_map.1 hmm
          obtain ⟨⟨t0, ht0, hx0⟩, _, _⟩ := mem_scanTitles_snd (hA_key_toMap rs hrs)
          refine hmemk ?_
          rw [← hfst, hx0]
          exact List.mem_map.2 ⟨t0, ht0, rfl⟩
        rw [hnone]
        exact (scanTitles_fst_not_mem hmemk).symm
    · intro t ht hne
      cases hc : cache.lookup (pyStrip (pyStrip t)) with
      | some v =>
        rw [hcache1_pres _ v hc]
        rfl
      | none =>
        exact hcov _ (scanTitles_snd_mem ht hne hc)

/-- C5: map_titles_batch never fails the operation — a failing external
call degrades every title in that batch to "NONE" in the returned dict and
writes that result to the cache keyed by the trimmed raw title; and (under
the response contract that the model uses the exact raw title strings as
keys) a second call with the same raw titles issues no external call,
leaves the cache unchanged, and returns the same mapping. -/
theorem map_titles_batch_spec :
    (∀ (titles : List String) (cache : List (String × String)) (t : String),
      t ∈ titles → pyStrip t ≠ "" →
      cache.lookup (pyStrip (pyStrip t)) = none →
      ((map_titles_batch (fun _ => Except.error ()) titles cache).1.lookup
          (pyStrip t) = some "NONE") ∧
      ((map_titles_batch (fun _ => Except.error ()) titles cache).2.1.lookup
          (pyStrip (pyStrip t)) = some "NONE")) ∧
    (∀ (api : List String → Except Unit (List (String × String))),
      (∀ b m, api b = Except.ok m → m.map Prod.fst = b) →
      ∀ (titles : List String) (cache : List (String × String)),
      (map_titles_batch api titles
        (map_titles_batch api titles cache).2.1).2.2 = 0 ∧
      (map_titles_batch api titles
        (map_titles_batch api titles cache).2.1).2.1 =
        (map_titles_batch api titles cache).2.1 ∧
      (∀ k, (map_titles_batch api titles
          (map_titles_batch api titles cache).2.1).1.lookup k =
        (map_titles_batch api titles cache).1.lookup k) ∧
      (∀ t ∈ titles, pyStrip t ≠ "" →
        (((map_titles_batch api titles cache).2.1).lookup
          (pyStrip (pyStrip t))).isSome)) :=
  ⟨fun titles cache t ht hne hm =>
    map_titles_batch_failure_none titles cache t ht hne hm,
   fun api H titles cache => map_titles_batch_idempotent api H titles cache⟩

/-- Witness for C5: a failing call on one uncached title yields "NONE", and
a repeated call issues zero external calls. -/
theorem map_titles_batch_spec_witness :
    ((map_titles_batch (fun _ => Except.error ()) ["CFO "] []).1.lookup
        (pyStrip "CFO ") = some "NONE") ∧
    (map_titles_batch (fun _ => Except.error ()) ["CEO"]
      (map_titles_batch (fun _ => Except.error ()) ["CEO"] []).2.1).2.2 = 0 :=
  ⟨(map_titles_batch_spec.1 ["CFO "] [] "CFO " (by simp) (by decide) rfl).1,
   (map_titles_batch_spec.2 (fun _ => Except.error ())
      (fun _ _ h => Except.noConfusion h) ["CEO"] []).1⟩

end SeniorsAtWork
